import Mathlib

/-!
Verification of the nested-route diff engine in `src/routing/src/nested_router.rs`.

The engine is embedded as a pure state-transition system.  Opaque runtime
identities (scopes/owners, triggers, params signals, channel endpoints) are
`Nat` handles drawn from a fresh counter, and every observable action of the
Rust code (scope creation, params-signal update, channel send, trigger fire,
scope disposal, context provision) is recorded as an `Event` appended to a
trace.  The functions `buildNestedRoute`, `rebuildNestedRoute`, `buildTop`
and `rebuildTop` are direct transliterations of `build_nested_route`,
`rebuild_nested_route`, `Render::build` and `Render::rebuild`.
-/

set_option autoImplicit false

/-- Params at one depth: ordered name → value pairs extracted from the path
(`Params` in the source, collected from `to_params()`). -/
def RouteParams : Type := List (String × String)

instance : DecidableEq RouteParams := by
  unfold RouteParams
  infer_instance

/-- One depth of a match chain, as exposed by the `MatchInterface` +
`MatchParams` traits: a stable route id (`as_id()`), extracted params
(`to_params()`), and a one-shot view constructor (`into_view_and_child().0`,
represented by an opaque token).  A full match chain is a `List Frame`;
the tail of the list is the optional `child` match (empty tail = no child),
which is faithful because the chain is singly linked. -/
structure Frame where
  id : Nat
  params : RouteParams
  view : Nat
  deriving DecidableEq

/-- The `OutletContext` struct: last-known route id, trigger handle, params
signal handle, owner (scope) handle, and the two channel endpoint handles
(`tx`, `rx`).  In the source `rx` is `Arc<Mutex<Option<Receiver>>>` wrapping
the receiver of the same channel as `tx`. -/
structure OutletCtx where
  id : Nat
  trigger : Nat
  params : Nat
  owner : Nat
  tx : Nat
  rx : Nat
  deriving DecidableEq

/-- Observable actions of the engine, recorded in order. -/
inductive Event where
  /-- `parent.child()`: a new scope was created as a child of `parent`. -/
  | newScope (scope parent : Nat)
  /-- `ArcRwSignal::new(...)`: a params signal was created with an initial value. -/
  | newSig (sig : Nat) (ps : RouteParams)
  /-- `ArcTrigger::new()`. -/
  | newTrigger (t : Nat)
  /-- `mpsc::channel()`. -/
  | newChan (c : Nat)
  /-- `params.set(...)`: the params signal was updated in place. -/
  | paramsSet (sig : Nat) (ps : RouteParams)
  /-- `tx.send(...)`: a view constructor was sent through channel `chan`,
  boxed so that it runs under scope `owner`. -/
  | send (chan view owner : Nat)
  /-- `trigger.trigger()`. -/
  | fire (t : Nat)
  /-- The scope was disposed (all resources created under it released). -/
  | dispose (scope : Nat)
  /-- `provide_context`: the context was provided into ambient context of `scope`. -/
  | provide (scope : Nat) (ctx : OutletCtx)
  deriving DecidableEq

/-- Engine state: a fresh-handle counter and the event trace. -/
structure St where
  fresh : Nat
  events : List Event
  deriving DecidableEq

def St.init : St := ⟨0, []⟩

/-- Append one event to the trace. -/
def St.emit (st : St) (e : Event) : St := { st with events := st.events ++ [e] }

/-- Modelled from the spec: scope disposal.  The `Owner` type lives in
`reactive_graph` (not under `src/`); per the spec, disposing a scope
"disposes all resources (signals, child scopes, provided context values)
created within it", and an `OutletContext` removed from the outlet stack
relinquishes its scope, which is disposed.  We record one `dispose` event per
removed scope. -/
def St.disposeAll (st : St) (owners : List Nat) : St :=
  { st with events := st.events ++ owners.map Event.dispose }

/-- `build_nested_route` (src/routing/src/nested_router.rs, lines 216-270).
Walks the chain; at each depth: create a child scope of `parent`, create the
params signal, trigger and channel, push the `OutletContext`, send the
initial view through the channel under the new scope, provide the context
into the parent scope, and recurse into the child with the new scope.
The `[]` case is the absent `child` (the source only recurses
`if let Some(child)`). -/
def buildNestedRoute : List Frame → List OutletCtx → Nat → St → List OutletCtx × St
  | [], outlets, _, st => (outlets, st)
  | f :: rest, outlets, parent, st =>
    let s := st.fresh
    let p := st.fresh + 1
    let t := st.fresh + 2
    let c := st.fresh + 3
    let st := { st with fresh := st.fresh + 4 }
    let st := st.emit (Event.newScope s parent)
    let st := st.emit (Event.newSig p f.params)
    let st := st.emit (Event.newTrigger t)
    let st := st.emit (Event.newChan c)
    let outlet : OutletCtx := ⟨f.id, t, p, s, c, c⟩
    let outlets := outlets ++ [outlet]
    let st := st.emit (Event.send c f.view s)
    let st := st.emit (Event.provide parent outlet)
    buildNestedRoute rest outlets s st

/-- `rebuild_nested_route` (src/routing/src/nested_router.rs, lines 272-348).
`items` is the depth cursor.  If no outlet exists at the cursor, build from
here.  Otherwise always update the params signal; if the ids differ, record
the new id, replace the owner by a fresh child of `parent` (old owner
disposed when dropped, at the end of the branch), send the new view, fire
the trigger, truncate the stack to `items + 1` (removed entries' scopes
disposed), build the remaining chain into a fresh vector and append it.
If the ids are equal, recurse into the child with the current owner
(the `[]` base case is the absent child: no recursion in the source). -/
def rebuildNestedRoute : List Frame → Nat → List OutletCtx → Nat → St → List OutletCtx × St
  | [], _, outlets, _, st => (outlets, st)
  | f :: rest, items, outlets, parent, st =>
    match outlets[items]? with
    | none => buildNestedRoute (f :: rest) outlets parent st
    | some cur =>
      let st := st.emit (Event.paramsSet cur.params f.params)
      if f.id = cur.id then
        rebuildNestedRoute rest (items + 1) outlets cur.owner st
      else
        let s := st.fresh
        let st := { st with fresh := st.fresh + 1 }
        let st := st.emit (Event.newScope s parent)
        let newCur : OutletCtx := { cur with id := f.id, owner := s }
        let st := st.emit (Event.send cur.tx f.view s)
        let st := st.emit (Event.fire cur.trigger)
        let st := st.disposeAll ((outlets.drop (items + 1)).map OutletCtx.owner)
        let truncated := outlets.take items ++ [newCur]
        let r := buildNestedRoute rest [] s st
        (truncated ++ r.1, r.2.emit (Event.dispose cur.owner))

/-- The top-level rendered output: `Either::Left(fallback)` or
`Either::Right` of the `Outlet` placeholder. -/
inductive TopView where
  | fallback
  | placeholder
  deriving DecidableEq

/-- The `NestedRouteViewState` fields this core manipulates: the outlet
stack and the rendered top-level view. -/
structure RouterState where
  outlets : List OutletCtx
  view : TopView
  deriving DecidableEq

/-- `Render::build` for `NestedRoutesView` (lines 72-107).  `[]` is a `None`
match: render the fallback, no outlets.  Otherwise build the nested route
chain from the outer owner and render the `Outlet` placeholder. -/
def buildTop : List Frame → Nat → St → RouterState × St
  | [], _, st => (⟨[], TopView.fallback⟩, st)
  | f :: rest, outer, st =>
    let r := buildNestedRoute (f :: rest) [] outer st
    (⟨r.1, TopView.placeholder⟩, r.2)

/-- `Render::rebuild` for `NestedRoutesView` (lines 109-128).  On `None`
match: rebuild the view to the fallback and clear the outlet stack
(disposing the scopes of the dropped contexts).  On `Some`: run
`rebuild_nested_route` with cursor 0 — the source never touches
`state.view` in this branch (the `fallback => real view` case is an
unhandled `TODO` in the source). -/
def rebuildTop : List Frame → RouterState → Nat → St → RouterState × St
  | [], s, _, st =>
    (⟨[], TopView.fallback⟩, st.disposeAll (s.outlets.map OutletCtx.owner))
  | f :: rest, s, outer, st =>
    let r := rebuildNestedRoute (f :: rest) 0 s.outlets outer st
    (⟨r.1, s.view⟩, r.2)

/-- Failure modes of the `Outlet` component (lines 373-397): the two
`expect`s and the `unwrap` of `try_recv`. -/
inductive OutletErr where
  | noContext
  | rxTaken
  | emptyReceive
  deriving DecidableEq

/-- The diagnostic attached to each failure in the source. -/
def OutletErr.message : OutletErr → String
  | noContext => "<Outlet/> used without OutletContext being provided."
  | rxTaken =>
      "Tried to render <Outlet/> but could not find the view receiver. Are you using the same <Outlet/> twice?"
  | emptyReceive => "unwrap of an empty try_recv"

/-- The mount-time half of the `Outlet` component: `use_context::<OutletContext>()`
followed by `rx.lock().take()`.  `ctx = none` models no `OutletContext`
reachable by ambient lookup; `rxPresent = false` models the receiver having
already been taken by a previous render of the same context. -/
def outletInit (ctx : Option OutletCtx) (rxPresent : Bool) : Except OutletErr OutletCtx :=
  match ctx with
  | none => Except.error OutletErr.noContext
  | some c =>
    if rxPresent then Except.ok c
    else Except.error OutletErr.rxTaken

/-- The render closure of the `Outlet` component:
`rx.try_recv().map(|view| view()).unwrap()`.  `queue` is the channel's
pending FIFO contents; `try_recv` is non-blocking, returning the oldest
queued view or an error when the queue is empty, and the `unwrap` turns the
empty case into a fatal failure.  Returns the rendered view token and the
remaining queue. -/
def outletRender (queue : List Nat) : Except OutletErr (Nat × List Nat) :=
  match queue with
  | [] => Except.error OutletErr.emptyReceive
  | v :: rest => Except.ok (v, rest)

/-! ### Basic state lemmas -/

@[simp]
theorem St.emit_events (st : St) (e : Event) : (st.emit e).events = st.events ++ [e] := rfl

@[simp]
theorem St.emit_fresh (st : St) (e : Event) : (st.emit e).fresh = st.fresh := rfl

@[simp]
theorem St.disposeAll_events (st : St) (l : List Nat) :
    (st.disposeAll l).events = st.events ++ l.map Event.dispose := rfl

@[simp]
theorem St.disposeAll_fresh (st : St) (l : List Nat) : (st.disposeAll l).fresh = st.fresh := rfl

/-- The outlet context created by one step of `build_nested_route` on state `st`. -/
def stepCtx (f : Frame) (st : St) : OutletCtx :=
  ⟨f.id, st.fresh + 2, st.fresh + 1, st.fresh, st.fresh + 3, st.fresh + 3⟩

/-- The six events emitted by one step of `build_nested_route`. -/
def stepEvents (f : Frame) (p : Nat) (st : St) : List Event :=
  [Event.newScope st.fresh p, Event.newSig (st.fresh + 1) f.params,
   Event.newTrigger (st.fresh + 2), Event.newChan (st.fresh + 3),
   Event.send (st.fresh + 3) f.view st.fresh, Event.provide p (stepCtx f st)]

/-- Unfolding equation for the cons case of `buildNestedRoute`. -/
theorem buildNestedRoute_cons (f : Frame) (rest : List Frame) (acc : List OutletCtx)
    (p : Nat) (st : St) :
    buildNestedRoute (f :: rest) acc p st =
      buildNestedRoute rest (acc ++ [stepCtx f st]) st.fresh
        { fresh := st.fresh + 4, events := st.events ++ stepEvents f p st } := by
  simp [buildNestedRoute, St.emit, stepCtx, stepEvents]

/-- Unfolding equation for `rebuildNestedRoute` when no outlet exists at the cursor. -/
theorem rebuildNestedRoute_none (f : Frame) (rest : List Frame) (items : Nat)
    (outlets : List OutletCtx) (parent : Nat) (st : St) (h : outlets[items]? = none) :
    rebuildNestedRoute (f :: rest) items outlets parent st =
      buildNestedRoute (f :: rest) outlets parent st := by
  simp [rebuildNestedRoute, h]

/-- Unfolding equation for `rebuildNestedRoute` in the identity-equal branch. -/
theorem rebuildNestedRoute_eq (f : Frame) (rest : List Frame) (items : Nat)
    (outlets : List OutletCtx) (parent : Nat) (st : St) (cur : OutletCtx)
    (h : outlets[items]? = some cur) (hid : f.id = cur.id) :
    rebuildNestedRoute (f :: rest) items outlets parent st =
      rebuildNestedRoute rest (items + 1) outlets cur.owner
        { st with events := st.events ++ [Event.paramsSet cur.params f.params] } := by
  simp [rebuildNestedRoute, h, hid, St.emit]

/-- The four leading events emitted by the identity-different branch of
`rebuildNestedRoute`, followed by the disposal of the truncated entries. -/
def swapEvents (f : Frame) (cur : OutletCtx) (parent : Nat) (items : Nat)
    (outlets : List OutletCtx) (st : St) : List Event :=
  [Event.paramsSet cur.params f.params, Event.newScope st.fresh parent,
   Event.send cur.tx f.view st.fresh, Event.fire cur.trigger] ++
    (outlets.drop (items + 1)).map (fun u => Event.dispose u.owner)

/-- Unfolding equation for `rebuildNestedRoute` in the identity-different branch. -/
theorem rebuildNestedRoute_ne (f : Frame) (rest : List Frame) (items : Nat)
    (outlets : List OutletCtx) (parent : Nat) (st : St) (cur : OutletCtx)
    (h : outlets[items]? = some cur) (hid : f.id ≠ cur.id) :
    rebuildNestedRoute (f :: rest) items outlets parent st =
      ((outlets.take items ++ [{ cur with id := f.id, owner := st.fresh }]) ++
        (buildNestedRoute rest [] st.fresh
          { fresh := st.fresh + 1,
            events := st.events ++ swapEvents f cur parent items outlets st }).1,
       (buildNestedRoute rest [] st.fresh
          { fresh := st.fresh + 1,
            events := st.events ++ swapEvents f cur parent items outlets st }).2.emit
         (Event.dispose cur.owner)) := by
  simp [rebuildNestedRoute, h, hid, St.emit, St.disposeAll, swapEvents, Function.comp_def]

/-- `buildNestedRoute` only appends to the trace, and never fires a trigger. -/
theorem build_events_shape (c : List Frame) :
    ∀ (acc : List OutletCtx) (p : Nat) (st : St),
    ∃ d, (buildNestedRoute c acc p st).2.events = st.events ++ d ∧ ∀ t, Event.fire t ∉ d := by
  induction c with
  | nil =>
    intro acc p st
    exact ⟨[], by simp [buildNestedRoute], by simp⟩
  | cons f rest ih =>
    intro acc p st
    rw [buildNestedRoute_cons]
    obtain ⟨d, hd, hnf⟩ := ih (acc ++ [stepCtx f st]) st.fresh
      { fresh := st.fresh + 4, events := st.events ++ stepEvents f p st }
    refine ⟨stepEvents f p st ++ d, ?_, ?_⟩
    · rw [hd]
      simp
    · intro t
      simp only [List.mem_append]
      rintro (hin | hin)
      · simp [stepEvents, stepCtx] at hin
      · exact hnf t hin

/-- `buildNestedRoute` appends its new outlets after the accumulator, and the
final state does not depend on the accumulator. -/
theorem build_acc_eq (c : List Frame) :
    ∀ (acc : List OutletCtx) (p : Nat) (st : St),
    buildNestedRoute c acc p st =
      (acc ++ (buildNestedRoute c [] p st).1, (buildNestedRoute c [] p st).2) := by
  induction c with
  | nil =>
    intro acc p st
    simp [buildNestedRoute]
  | cons f rest ih =>
    intro acc p st
    rw [buildNestedRoute_cons, buildNestedRoute_cons, ih (acc ++ [stepCtx f st]),
        ih ([] ++ [stepCtx f st])]
    simp

/-- `buildNestedRoute` pushes exactly one outlet per depth. -/
theorem build_len (c : List Frame) :
    ∀ (p : Nat) (st : St), (buildNestedRoute c [] p st).1.length = c.length := by
  induction c with
  | nil =>
    intro p st
    simp [buildNestedRoute]
  | cons f rest ih =>
    intro p st
    rw [buildNestedRoute_cons, build_acc_eq]
    simp [ih]

/-- Structural description of an initial build: one outlet per depth in depth
order, correct ids, each depth's scope created as a child of the previous
depth's scope (the outer owner at depth 0), the depth's view sent through the
depth's channel under the depth's own scope, and the context provided into
the parent scope. -/
theorem build_spec (ch : List Frame) :
    ∀ (outer : Nat) (st : St),
    (buildNestedRoute ch [] outer st).1.length = ch.length ∧
    ∀ (k : Nat) (f : Frame), ch[k]? = some f →
      ∃ u p', (buildNestedRoute ch [] outer st).1[k]? = some u ∧
        u.id = f.id ∧
        ((k = 0 ∧ p' = outer) ∨
          (∃ j v, k = j + 1 ∧ (buildNestedRoute ch [] outer st).1[j]? = some v ∧ p' = v.owner)) ∧
        Event.newScope u.owner p' ∈ (buildNestedRoute ch [] outer st).2.events ∧
        Event.send u.tx f.view u.owner ∈ (buildNestedRoute ch [] outer st).2.events ∧
        Event.provide p' u ∈ (buildNestedRoute ch [] outer st).2.events := by
  induction ch with
  | nil =>
    intro outer st
    refine ⟨by simp [buildNestedRoute], ?_⟩
    intro k f hk
    simp at hk
  | cons f0 rest ih =>
    intro outer st
    rw [buildNestedRoute_cons, build_acc_eq]
    simp only [List.nil_append, List.singleton_append]
    obtain ⟨ihlen, ihspec⟩ :=
      ih st.fresh { fresh := st.fresh + 4, events := st.events ++ stepEvents f0 outer st }
    obtain ⟨d, hd, -⟩ := build_events_shape rest []
      st.fresh { fresh := st.fresh + 4, events := st.events ++ stepEvents f0 outer st }
    constructor
    · simp [ihlen]
    · intro k f hk
      match k with
      | 0 =>
        simp only [List.getElem?_cons_zero, Option.some.injEq] at hk
        subst hk
        refine ⟨stepCtx f0 st, outer, by simp, rfl, Or.inl ⟨rfl, rfl⟩, ?_, ?_, ?_⟩
        · rw [hd]
          simp [stepEvents, stepCtx]
        · rw [hd]
          simp [stepEvents, stepCtx]
        · rw [hd]
          simp [stepEvents]
      | k + 1 =>
        simp only [List.getElem?_cons_succ] at hk
        obtain ⟨u, p', h1, h2, h3, h4, h5, h6⟩ := ihspec k f hk
        refine ⟨u, p', by simpa using h1, h2, ?_, h4, h5, h6⟩
        rcases h3 with ⟨hk0, hp⟩ | ⟨j, v, hkj, hv, hp⟩
        · subst hk0
          exact Or.inr ⟨0, stepCtx f0 st, rfl, by simp, by rw [hp]; rfl⟩
        · subst hkj
          exact Or.inr ⟨j + 1, v, rfl, by simpa using hv, hp⟩

/-- `rebuildNestedRoute` only appends to the trace. -/
theorem rebuild_events_shape (c : List Frame) :
    ∀ (items : Nat) (outlets : List OutletCtx) (parent : Nat) (st : St),
    ∃ d, (rebuildNestedRoute c items outlets parent st).2.events = st.events ++ d := by
  induction c with
  | nil =>
    intro items outlets parent st
    exact ⟨[], by simp [rebuildNestedRoute]⟩
  | cons f rest ih =>
    intro items outlets parent st
    cases hcur : outlets[items]? with
    | none =>
      rw [rebuildNestedRoute_none _ _ _ _ _ _ hcur]
      obtain ⟨d, hd, -⟩ := build_events_shape (f :: rest) outlets parent st
      exact ⟨d, hd⟩
    | some cur =>
      by_cases hid : f.id = cur.id
      · rw [rebuildNestedRoute_eq _ _ _ _ _ _ _ hcur hid]
        obtain ⟨d, hd⟩ := ih (items + 1) outlets cur.owner
          { st with events := st.events ++ [Event.paramsSet cur.params f.params] }
        exact ⟨[Event.paramsSet cur.params f.params] ++ d, by rw [hd]; simp⟩
      · rw [rebuildNestedRoute_ne _ _ _ _ _ _ _ hcur hid]
        obtain ⟨d, hd, -⟩ := build_events_shape rest [] st.fresh
          { fresh := st.fresh + 1, events := st.events ++ swapEvents f cur parent items outlets st }
        refine ⟨swapEvents f cur parent items outlets st ++ d ++ [Event.dispose cur.owner], ?_⟩
        rw [St.emit_events, hd]
        simp

/-- Ids of the outlets pushed by an initial build. -/
theorem build_ids (ch : List Frame) (p : Nat) (st : St) (k : Nat) (f : Frame)
    (hk : ch[k]? = some f) :
    ∃ u, (buildNestedRoute ch [] p st).1[k]? = some u ∧ u.id = f.id := by
  obtain ⟨u, p', h1, h2, -⟩ := (build_spec ch p st).2 k f hk
  exact ⟨u, h1, h2⟩

/-- After a rebuild pass the stack keeps its prefix below the cursor, has at
least one entry per remaining chain depth, and records the new chain's id at
every chain depth. -/
theorem rebuild_ids (ch : List Frame) :
    ∀ (items : Nat) (outlets : List OutletCtx) (parent : Nat) (st : St),
    items ≤ outlets.length →
    (rebuildNestedRoute ch items outlets parent st).1.take items = outlets.take items ∧
    items + ch.length ≤ (rebuildNestedRoute ch items outlets parent st).1.length ∧
    ∀ (k : Nat) (f : Frame), ch[k]? = some f →
      ∃ u, (rebuildNestedRoute ch items outlets parent st).1[items + k]? = some u ∧
        u.id = f.id := by
  induction ch with
  | nil =>
    intro items outlets parent st hle
    refine ⟨by simp [rebuildNestedRoute], by simpa [rebuildNestedRoute], ?_⟩
    intro k f hk
    simp at hk
  | cons f0 rest ih =>
    intro items outlets parent st hle
    cases hcur : outlets[items]? with
    | none =>
      have hlen : outlets.length ≤ items := by
        by_contra hlt
        push_neg at hlt
        rw [List.getElem?_eq_getElem hlt] at hcur
        exact Option.noConfusion hcur
      have hitems : items = outlets.length := le_antisymm hle hlen
      rw [rebuildNestedRoute_none _ _ _ _ _ _ hcur, build_acc_eq]
      refine ⟨?_, ?_, ?_⟩
      · rw [hitems, List.take_left, List.take_length]
      · rw [List.length_append, build_len, hitems, List.length_cons]
      · intro k f hk
        obtain ⟨u, hu, huid⟩ := build_ids (f0 :: rest) parent st k f hk
        refine ⟨u, ?_, huid⟩
        rw [List.getElem?_append_right (by omega)]
        have harith : items + k - outlets.length = k := by omega
        rw [harith]
        exact hu
    | some cur =>
      have hlt : items < outlets.length := (List.getElem?_eq_some.mp hcur).1
      by_cases hid : f0.id = cur.id
      · rw [rebuildNestedRoute_eq _ _ _ _ _ _ _ hcur hid]
        obtain ⟨ihtake, ihlen, ihids⟩ := ih (items + 1) outlets cur.owner
          { st with events := st.events ++ [Event.paramsSet cur.params f0.params] }
          (by omega)
        refine ⟨?_, ?_, ?_⟩
        · have h2 := congrArg (List.take items) ihtake
          rwa [List.take_take, List.take_take, inf_eq_left.mpr (by omega)] at h2
        · rw [List.length_cons]
          omega
        · intro k f hk
          match k with
          | 0 =>
            simp only [List.getElem?_cons_zero, Option.some.injEq] at hk
            subst hk
            have h2 := congrArg (fun l => l[items]?) ihtake
            simp only [List.getElem?_take, if_pos (Nat.lt_succ_self items)] at h2
            exact ⟨cur, h2.trans hcur, hid.symm⟩
          | k + 1 =>
            simp only [List.getElem?_cons_succ] at hk
            obtain ⟨u, hu, huid⟩ := ihids k f hk
            refine ⟨u, ?_, huid⟩
            have harith : items + 1 + k = items + (k + 1) := by omega
            rwa [harith] at hu
      · rw [rebuildNestedRoute_ne _ _ _ _ _ _ _ hcur hid]
        have h1 : (outlets.take items).length = items := by
          rw [List.length_take]
          exact inf_eq_left.mpr (le_of_lt hlt)
        refine ⟨?_, ?_, ?_⟩
        · rw [List.append_assoc, List.take_append_eq_append_take, h1, Nat.sub_self,
              List.take_zero, List.append_nil, List.take_take, inf_idem]
        · have hB := build_len rest st.fresh
            { fresh := st.fresh + 1,
              events := st.events ++ swapEvents f0 cur parent items outlets st }
          simp only [List.length_append, List.length_cons, List.length_nil, h1, hB]
          omega
        · intro k f hk
          match k with
          | 0 =>
            simp only [List.getElem?_cons_zero, Option.some.injEq] at hk
            subst hk
            refine ⟨{ cur with id := f0.id, owner := st.fresh }, ?_, rfl⟩
            rw [List.append_assoc, List.getElem?_append_right (by rw [h1]; omega), h1]
            have harith : items + 0 - items = 0 := by omega
            rw [harith]
            simp
          | k + 1 =>
            simp only [List.getElem?_cons_succ] at hk
            obtain ⟨u, hu, huid⟩ := build_ids rest st.fresh
              { fresh := st.fresh + 1,
                events := st.events ++ swapEvents f0 cur parent items outlets st } k f hk
            refine ⟨u, ?_, huid⟩
            have hlen2 :
                (outlets.take items ++
                  [{ cur with id := f0.id, owner := st.fresh }]).length = items + 1 := by
              rw [List.length_append, h1]
              rfl
            rw [List.getElem?_append_right (by rw [hlen2]; omega), hlen2]
            have harith : items + (k + 1) - (items + 1) = k := by omega
            rw [harith]
            exact hu

/-- The per-depth `paramsSet` events of an identity-equal rebuild pass. -/
def paramsDelta (ch : List Frame) (outlets : List OutletCtx) : List Event :=
  (ch.zip outlets).map (fun q => Event.paramsSet q.2.params q.1.params)

/-- A rebuild pass over a stack whose ids already agree with the chain leaves
the stack untouched and appends exactly one `paramsSet` event per depth. -/
theorem rebuild_same_ids (ch : List Frame) :
    ∀ (items : Nat) (outlets : List OutletCtx) (parent : Nat) (st : St),
    (∀ (k : Nat) (f : Frame), ch[k]? = some f →
      ∃ u, outlets[items + k]? = some u ∧ u.id = f.id) →
    rebuildNestedRoute ch items outlets parent st =
      (outlets, { st with events := st.events ++ paramsDelta ch (outlets.drop items) }) := by
  induction ch with
  | nil =>
    intro items outlets parent st hids
    simp [rebuildNestedRoute, paramsDelta]
  | cons f0 rest ih =>
    intro items outlets parent st hids
    obtain ⟨cur, hcur, hid⟩ := hids 0 f0 (by simp)
    have hcur' : outlets[items]? = some cur := hcur
    obtain ⟨hlt, heq⟩ := List.getElem?_eq_some.mp hcur'
    rw [rebuildNestedRoute_eq f0 rest items outlets parent st cur hcur' hid.symm]
    rw [ih (items + 1) outlets cur.owner
      { st with events := st.events ++ [Event.paramsSet cur.params f0.params] } ?_]
    · have hdrop : outlets.drop items = cur :: outlets.drop (items + 1) := by
        rw [List.drop_eq_getElem_cons hlt, heq]
      rw [hdrop]
      simp [paramsDelta, List.zip_cons_cons]
    · intro k f hk
      obtain ⟨u, hu, huid⟩ := hids (k + 1) f (by simpa using hk)
      refine ⟨u, ?_, huid⟩
      have harith : items + (k + 1) = items + 1 + k := by omega
      rwa [harith] at hu

/-- Two chains with equal id sequences match index by index up to id. -/
theorem map_id_index (ca cb : List Frame) (hmap : ca.map Frame.id = cb.map Frame.id)
    (k : Nat) (g : Frame) (hk : cb[k]? = some g) :
    ∃ f, ca[k]? = some f ∧ f.id = g.id := by
  have h1 := congrArg (fun l => l[k]?) hmap
  simp only [List.getElem?_map] at h1
  rw [hk] at h1
  cases hc : ca[k]? with
  | none =>
    rw [hc] at h1
    simp at h1
  | some f =>
    rw [hc] at h1
    simp at h1
    exact ⟨f, rfl, h1⟩

/-- Every event of a `paramsDelta` is a `paramsSet`. -/
theorem paramsDelta_only (ch : List Frame) (outlets : List OutletCtx) (e : Event)
    (he : e ∈ paramsDelta ch outlets) : ∃ sig ps, e = Event.paramsSet sig ps := by
  simp only [paramsDelta, List.mem_map] at he
  obtain ⟨q, hq, heq⟩ := he
  exact ⟨q.2.params, q.1.params, heq.symm⟩

/-- Claim C2: for any two successive path changes whose match chains yield
the same id sequence (even with different params and views), the second
rebuild pass returns the router state unchanged — no scope is disposed, no
view is re-sent, no scope is created and no trigger fires at any depth — and
the only appended events are one in-place `paramsSet` per depth of the new
chain. -/
theorem c2_identity_stability (ca cb : List Frame) (s0 : RouterState) (outer : Nat) (st : St)
    (hmap : ca.map Frame.id = cb.map Frame.id) :
    rebuildTop cb (rebuildTop ca s0 outer st).1 outer (rebuildTop ca s0 outer st).2 =
      ((rebuildTop ca s0 outer st).1,
       { (rebuildTop ca s0 outer st).2 with
           events := (rebuildTop ca s0 outer st).2.events ++
             paramsDelta cb (rebuildTop ca s0 outer st).1.outlets }) ∧
    (∀ t, Event.fire t ∉ paramsDelta cb (rebuildTop ca s0 outer st).1.outlets) ∧
    (∀ sc, Event.dispose sc ∉ paramsDelta cb (rebuildTop ca s0 outer st).1.outlets) ∧
    (∀ chn v ow, Event.send chn v ow ∉ paramsDelta cb (rebuildTop ca s0 outer st).1.outlets) ∧
    (∀ sc pa, Event.newScope sc pa ∉ paramsDelta cb (rebuildTop ca s0 outer st).1.outlets) := by
  refine ⟨?_, ?_, ?_, ?_, ?_⟩
  case _ =>
    cases ca with
    | nil =>
      have hcb : cb = [] := by
        cases cb with
        | nil => rfl
        | cons g r => simp at hmap
      subst hcb
      simp [rebuildTop, St.disposeAll, paramsDelta]
    | cons f rest =>
      cases cb with
      | nil => simp at hmap
      | cons g rest' =>
        have hids1 := (rebuild_ids (f :: rest) 0 s0.outlets outer st (by omega)).2.2
        simp only [rebuildTop]
        have hsame := rebuild_same_ids (g :: rest') 0
          (rebuildNestedRoute (f :: rest) 0 s0.outlets outer st).1 outer
          (rebuildNestedRoute (f :: rest) 0 s0.outlets outer st).2 ?_
        · rw [hsame]
          simp
        · intro k f' hk
          obtain ⟨f'', hf'', hfid⟩ := map_id_index (f :: rest) (g :: rest') hmap k f' hk
          obtain ⟨u, hu, huid⟩ := hids1 k f'' hf''
          exact ⟨u, hu, huid.trans hfid⟩
  case _ =>
    intro t hmem
    obtain ⟨sig, ps, h⟩ := paramsDelta_only _ _ _ hmem
    exact Event.noConfusion h
  case _ =>
    intro sc hmem
    obtain ⟨sig, ps, h⟩ := paramsDelta_only _ _ _ hmem
    exact Event.noConfusion h
  case _ =>
    intro chn v ow hmem
    obtain ⟨sig, ps, h⟩ := paramsDelta_only _ _ _ hmem
    exact Event.noConfusion h
  case _ =>
    intro sc pa hmem
    obtain ⟨sig, ps, h⟩ := paramsDelta_only _ _ _ hmem
    exact Event.noConfusion h

/-- Witness for C2 at a concrete input: same id at depth 0, different params
and views (navigating between two param values of one route). -/
theorem c2_identity_stability_witness :
    ([⟨1, [("id", "1")], 10⟩] : List Frame).map Frame.id =
      ([⟨1, [("id", "2")], 11⟩] : List Frame).map Frame.id ∧
    rebuildTop [⟨1, [("id", "2")], 11⟩]
        (rebuildTop [⟨1, [("id", "1")], 10⟩] ⟨[], TopView.fallback⟩ 100 St.init).1 100
        (rebuildTop [⟨1, [("id", "1")], 10⟩] ⟨[], TopView.fallback⟩ 100 St.init).2 =
      ((rebuildTop [⟨1, [("id", "1")], 10⟩] ⟨[], TopView.fallback⟩ 100 St.init).1,
       { (rebuildTop [⟨1, [("id", "1")], 10⟩] ⟨[], TopView.fallback⟩ 100 St.init).2 with
           events := (rebuildTop [⟨1, [("id", "1")], 10⟩] ⟨[], TopView.fallback⟩ 100
               St.init).2.events ++
             paramsDelta [⟨1, [("id", "2")], 11⟩]
               (rebuildTop [⟨1, [("id", "1")], 10⟩] ⟨[], TopView.fallback⟩ 100
                   St.init).1.outlets }) :=
  ⟨rfl,
   (c2_identity_stability [⟨1, [("id", "1")], 10⟩] [⟨1, [("id", "2")], 11⟩]
     ⟨[], TopView.fallback⟩ 100 St.init rfl).1⟩

/-- Claim C5: whenever the route match is `None`, the fallback is rendered
and the outlet stack is empty: the initial build creates no outlets, and the
rebuild clears the whole stack, disposing every removed context's scope, and
switches the rendered output to the fallback. -/
theorem c5_no_match_renders_fallback_and_clears (s : RouterState) (outer : Nat) (st : St) :
    buildTop [] outer st = (⟨[], TopView.fallback⟩, st) ∧
    rebuildTop [] s outer st =
      (⟨[], TopView.fallback⟩, st.disposeAll (s.outlets.map OutletCtx.owner)) :=
  ⟨rfl, rfl⟩

/-- Counterexample to claim C7 as stated: when the `Outlet` render closure
runs with no pending view on the channel, it does not render nothing or
retain its previous render — it fails (the source calls `.unwrap()` on the
empty `try_recv`). -/
theorem c7_empty_receive_fails :
    outletRender [] = Except.error OutletErr.emptyReceive := rfl

/-- Claim C7 amended: the channel receive is non-blocking (`try_recv`,
modelled as a total function of the queue, returning immediately with the
oldest pending view), but a render invoked with no pending view fails
fatally rather than rendering nothing or retaining the previous render. -/
theorem c7_nonblocking_receive_amended :
    (∀ (v : Nat) (rest : List Nat), outletRender (v :: rest) = Except.ok (v, rest)) ∧
    outletRender [] = Except.error OutletErr.emptyReceive :=
  ⟨fun _ _ => rfl, rfl⟩

/-- Claim C8: an `Outlet` with no reachable `OutletContext` fails fatally,
an `Outlet` whose receiver was already claimed fails fatally, the two
failures are distinct and carry distinct diagnostics, and a first claim with
the receiver present succeeds. -/
theorem c8_outlet_fatal_misuse :
    (∀ (b : Bool), outletInit none b = Except.error OutletErr.noContext) ∧
    (∀ (u : OutletCtx), outletInit (some u) false = Except.error OutletErr.rxTaken) ∧
    (∀ (u : OutletCtx), outletInit (some u) true = Except.ok u) ∧
    OutletErr.noContext ≠ OutletErr.rxTaken ∧
    OutletErr.noContext.message ≠ OutletErr.rxTaken.message :=
  ⟨fun _ => rfl, fun _ => rfl, fun _ => rfl, by decide, by decide⟩

/-- Claim C3 is violated by the code: after building the three-depth chain
with ids `[0, 1, 2]` and rebuilding with the two-depth chain with ids
`[0, 1]` (same ancestor ids, no child at depth 1), the outlet stack still
has length 3 — greater than the new chain's length 2 — the stale depth-2
outlet is untouched, and the pass appends only the two `paramsSet` events:
no scope is disposed.  The identity-equal branch of `rebuild_nested_route`
simply stops when the new match has no child. -/
theorem c3_shrink_keeps_stale_outlet :
    (rebuildTop [⟨0, [("p", "b")], 20⟩, ⟨1, [], 21⟩] (buildTop [⟨0, [("p", "a")], 10⟩, ⟨1, [], 11⟩, ⟨2, [], 12⟩] 100 St.init).1 100 (buildTop [⟨0, [("p", "a")], 10⟩, ⟨1, [], 11⟩, ⟨2, [], 12⟩] 100 St.init).2).1.outlets.length = 3 ∧
    (rebuildTop [⟨0, [("p", "b")], 20⟩, ⟨1, [], 21⟩] (buildTop [⟨0, [("p", "a")], 10⟩, ⟨1, [], 11⟩, ⟨2, [], 12⟩] 100 St.init).1 100 (buildTop [⟨0, [("p", "a")], 10⟩, ⟨1, [], 11⟩, ⟨2, [], 12⟩] 100 St.init).2).1.outlets = (buildTop [⟨0, [("p", "a")], 10⟩, ⟨1, [], 11⟩, ⟨2, [], 12⟩] 100 St.init).1.outlets ∧
    (rebuildTop [⟨0, [("p", "b")], 20⟩, ⟨1, [], 21⟩] (buildTop [⟨0, [("p", "a")], 10⟩, ⟨1, [], 11⟩, ⟨2, [], 12⟩] 100 St.init).1 100 (buildTop [⟨0, [("p", "a")], 10⟩, ⟨1, [], 11⟩, ⟨2, [], 12⟩] 100 St.init).2).2.events =
      (buildTop [⟨0, [("p", "a")], 10⟩, ⟨1, [], 11⟩, ⟨2, [], 12⟩] 100 St.init).2.events ++
        [Event.paramsSet 1 [("p", "b")], Event.paramsSet 5 []] := by
  decide

/-- Claim C4 is violated by the code: build a one-depth match (outlet
placeholder rendered), rebuild to no match (stack cleared, fallback
rendered), rebuild back to the same match.  The outlet stack is rebuilt from
empty exactly like a first-time build (one outlet, id 0), but the rendered
view stays the fallback instead of returning to the outlet placeholder: the
`Some` branch of `rebuild` never touches `state.view` (the
`fallback => real view` case is an unhandled `TODO` in the source). -/
theorem c4_fallback_round_trip_view_not_restored :
    (buildTop [⟨0, [], 10⟩] 100 St.init).1.view = TopView.placeholder ∧
    (rebuildTop [] (buildTop [⟨0, [], 10⟩] 100 St.init).1 100 (buildTop [⟨0, [], 10⟩] 100 St.init).2).1 = ⟨[], TopView.fallback⟩ ∧
    (rebuildTop [⟨0, [], 10⟩] (rebuildTop [] (buildTop [⟨0, [], 10⟩] 100 St.init).1 100 (buildTop [⟨0, [], 10⟩] 100 St.init).2).1 100 (rebuildTop [] (buildTop [⟨0, [], 10⟩] 100 St.init).1 100 (buildTop [⟨0, [], 10⟩] 100 St.init).2).2).1.outlets.length = 1 ∧
    (rebuildTop [⟨0, [], 10⟩] (rebuildTop [] (buildTop [⟨0, [], 10⟩] 100 St.init).1 100 (buildTop [⟨0, [], 10⟩] 100 St.init).2).1 100 (rebuildTop [] (buildTop [⟨0, [], 10⟩] 100 St.init).1 100 (buildTop [⟨0, [], 10⟩] 100 St.init).2).2).1.outlets.map OutletCtx.id = [0] ∧
    (rebuildTop [⟨0, [], 10⟩] (rebuildTop [] (buildTop [⟨0, [], 10⟩] 100 St.init).1 100 (buildTop [⟨0, [], 10⟩] 100 St.init).2).1 100 (rebuildTop [] (buildTop [⟨0, [], 10⟩] 100 St.init).1 100 (buildTop [⟨0, [], 10⟩] 100 St.init).2).2).1.view = TopView.fallback := by
  decide

/-- Claim C10: when a depth's route identity changes during rebuild, only
the id and owner of that depth's `OutletContext` are replaced; its trigger,
its params signal and both channel endpoints (`tx`, `rx`) remain the same
objects, so a mounted `Outlet` holding the receiver keeps observing the same
trigger and channel. -/
theorem c10_swap_preserves_channel (f : Frame) (rest : List Frame) (items : Nat)
    (outlets : List OutletCtx) (parent : Nat) (st : St) (cur : OutletCtx)
    (hcur : outlets[items]? = some cur) (hne : f.id ≠ cur.id)
    (hb : cur.owner < st.fresh) :
    ∃ u, (rebuildNestedRoute (f :: rest) items outlets parent st).1[items]? = some u ∧
      u.id = f.id ∧ u.trigger = cur.trigger ∧ u.params = cur.params ∧
      u.tx = cur.tx ∧ u.rx = cur.rx ∧ u.owner = st.fresh ∧ u.owner ≠ cur.owner := by
  have hlt : items < outlets.length := (List.getElem?_eq_some.mp hcur).1
  have h1 : (outlets.take items).length = items := by
    rw [List.length_take]
    exact inf_eq_left.mpr (le_of_lt hlt)
  rw [rebuildNestedRoute_ne _ _ _ _ _ _ _ hcur hne]
  refine ⟨{ cur with id := f.id, owner := st.fresh }, ?_, rfl, rfl, rfl, rfl, rfl, rfl, ?_⟩
  · rw [List.append_assoc, List.getElem?_append_right h1.le, h1, Nat.sub_self]
    simp
  · intro h
    have h2 : st.fresh = cur.owner := h
    omega

/-- Witness for C10 at a concrete input: the one-depth stack built for id 0
is rebuilt with id 1. -/
theorem c10_swap_preserves_channel_witness :
    (buildTop [⟨0, [], 10⟩] 100 St.init).1.outlets[0]? = some ⟨0, 2, 1, 0, 3, 3⟩ ∧
    (⟨1, [], 11⟩ : Frame).id ≠ (⟨0, 2, 1, 0, 3, 3⟩ : OutletCtx).id ∧
    (⟨0, 2, 1, 0, 3, 3⟩ : OutletCtx).owner < (buildTop [⟨0, [], 10⟩] 100 St.init).2.fresh ∧
    (∃ u, (rebuildNestedRoute [⟨1, [], 11⟩] 0 (buildTop [⟨0, [], 10⟩] 100 St.init).1.outlets 100 (buildTop [⟨0, [], 10⟩] 100 St.init).2).1[0]? = some u ∧
      u.id = (⟨1, [], 11⟩ : Frame).id ∧ u.trigger = (⟨0, 2, 1, 0, 3, 3⟩ : OutletCtx).trigger ∧
      u.params = (⟨0, 2, 1, 0, 3, 3⟩ : OutletCtx).params ∧
      u.tx = (⟨0, 2, 1, 0, 3, 3⟩ : OutletCtx).tx ∧
      u.rx = (⟨0, 2, 1, 0, 3, 3⟩ : OutletCtx).rx ∧
      u.owner = (buildTop [⟨0, [], 10⟩] 100 St.init).2.fresh ∧ u.owner ≠ (⟨0, 2, 1, 0, 3, 3⟩ : OutletCtx).owner) :=
  ⟨by decide, by decide, by decide,
   c10_swap_preserves_channel ⟨1, [], 11⟩ [] 0 (buildTop [⟨0, [], 10⟩] 100 St.init).1.outlets 100 (buildTop [⟨0, [], 10⟩] 100 St.init).2
     ⟨0, 2, 1, 0, 3, 3⟩ (by decide) (by decide) (by decide)⟩

/-- Claim C9: for every non-empty match chain the initial build pushes
exactly one `OutletContext` per depth of the chain, in depth order; each
depth's id is the match's id; each depth's scope is created as a child of
the previous depth's scope (the outer owner at depth 0); each depth's
initial view is sent through that depth's channel under that depth's own new
scope during the build (hence before any `Outlet` can consume it); and each
`OutletContext` is provided into ambient context of its parent scope. -/
theorem c9_build_one_outlet_per_depth (ch : List Frame) (outer : Nat) (st : St) :
    (buildNestedRoute ch [] outer st).1.length = ch.length ∧
    ∀ (k : Nat) (f : Frame), ch[k]? = some f →
      ∃ u p', (buildNestedRoute ch [] outer st).1[k]? = some u ∧
        u.id = f.id ∧
        ((k = 0 ∧ p' = outer) ∨
          (∃ j v, k = j + 1 ∧ (buildNestedRoute ch [] outer st).1[j]? = some v ∧ p' = v.owner)) ∧
        Event.newScope u.owner p' ∈ (buildNestedRoute ch [] outer st).2.events ∧
        Event.send u.tx f.view u.owner ∈ (buildNestedRoute ch [] outer st).2.events ∧
        Event.provide p' u ∈ (buildNestedRoute ch [] outer st).2.events :=
  build_spec ch outer st

/-- Witness for C9 at a concrete two-depth chain, instantiated at depth 1. -/
theorem c9_build_one_outlet_per_depth_witness :
    ([⟨0, [], 10⟩, ⟨1, [], 11⟩] : List Frame)[1]? = some ⟨1, [], 11⟩ ∧
    (∃ u p', (buildNestedRoute [⟨0, [], 10⟩, ⟨1, [], 11⟩] [] 100 St.init).1[1]? = some u ∧
      u.id = (⟨1, [], 11⟩ : Frame).id ∧
      ((1 = 0 ∧ p' = 100) ∨
        (∃ j v, 1 = j + 1 ∧
          (buildNestedRoute [⟨0, [], 10⟩, ⟨1, [], 11⟩] [] 100 St.init).1[j]? = some v ∧
          p' = v.owner)) ∧
      Event.newScope u.owner p' ∈
        (buildNestedRoute [⟨0, [], 10⟩, ⟨1, [], 11⟩] [] 100 St.init).2.events ∧
      Event.send u.tx (⟨1, [], 11⟩ : Frame).view u.owner ∈
        (buildNestedRoute [⟨0, [], 10⟩, ⟨1, [], 11⟩] [] 100 St.init).2.events ∧
      Event.provide p' u ∈
        (buildNestedRoute [⟨0, [], 10⟩, ⟨1, [], 11⟩] [] 100 St.init).2.events) :=
  ⟨rfl, (c9_build_one_outlet_per_depth [⟨0, [], 10⟩, ⟨1, [], 11⟩] 100 St.init).2 1 ⟨1, [], 11⟩ rfl⟩

/-- If a trigger fires during a `rebuildNestedRoute` pass, then earlier in
the same pass's event delta the params signal paired with that trigger in
the incoming stack was set to the corresponding chain frame's params. -/
theorem rebuild_fire_src (ch : List Frame) :
    ∀ (items : Nat) (outlets : List OutletCtx) (parent : Nat) (st : St)
      (d pre suf : List Event) (t : Nat),
    (rebuildNestedRoute ch items outlets parent st).2.events = st.events ++ d →
    d = pre ++ Event.fire t :: suf →
    ∃ (k : Nat) (u : OutletCtx) (f : Frame),
      outlets[items + k]? = some u ∧ u.trigger = t ∧ ch[k]? = some f ∧
      Event.paramsSet u.params f.params ∈ pre := by
  induction ch with
  | nil =>
    intro items outlets parent st d pre suf t hev hd
    simp only [rebuildNestedRoute] at hev
    have hdnil : d = [] := List.self_eq_append_right.mp hev
    rw [hdnil] at hd
    exact absurd hd.symm (by simp)
  | cons f0 rest ih =>
    intro items outlets parent st d pre suf t hev hd
    cases hcur : outlets[items]? with
    | none =>
      rw [rebuildNestedRoute_none _ _ _ _ _ _ hcur] at hev
      obtain ⟨bd, hbd, hnf⟩ := build_events_shape (f0 :: rest) outlets parent st
      rw [hbd] at hev
      have hmem : Event.fire t ∈ d := by
        rw [hd]
        simp
      rw [← List.append_cancel_left hev] at hmem
      exact absurd hmem (hnf t)
    | some cur =>
      by_cases hid : f0.id = cur.id
      · rw [rebuildNestedRoute_eq _ _ _ _ _ _ _ hcur hid] at hev
        obtain ⟨d1, hd1⟩ := rebuild_events_shape rest (items + 1) outlets cur.owner
          { st with events := st.events ++ [Event.paramsSet cur.params f0.params] }
        rw [hd1] at hev
        have hev2 : st.events ++ (Event.paramsSet cur.params f0.params :: d1) =
            st.events ++ d := by
          simpa using hev
        have hdeq := List.append_cancel_left hev2
        cases pre with
        | nil =>
          rw [hd] at hdeq
          simp at hdeq
        | cons p0 pre' =>
          rw [hd] at hdeq
          simp only [List.cons_append] at hdeq
          injection hdeq with hp0 htail
          obtain ⟨k, u, f, hu, ht, hf, hps⟩ :=
            ih (items + 1) outlets cur.owner
              { st with events := st.events ++ [Event.paramsSet cur.params f0.params] }
              d1 pre' suf t hd1 htail
          refine ⟨k + 1, u, f, ?_, ht, by simpa using hf, List.mem_cons_of_mem p0 hps⟩
          have harith : items + (k + 1) = items + 1 + k := by omega
          rwa [harith]
      · rw [rebuildNestedRoute_ne _ _ _ _ _ _ _ hcur hid] at hev
        obtain ⟨bd, hbd, hnf⟩ := build_events_shape rest [] st.fresh
          { fresh := st.fresh + 1,
            events := st.events ++ swapEvents f0 cur parent items outlets st }
        rw [St.emit_events, hbd] at hev
        have hev2 : st.events ++
            (swapEvents f0 cur parent items outlets st ++ (bd ++ [Event.dispose cur.owner])) =
            st.events ++ d := by
          simp only [← List.append_assoc]
          exact hev
        have hdeq := List.append_cancel_left hev2
        have hmem : Event.fire t ∈ d := by
          rw [hd]
          simp
        rw [← hdeq] at hmem
        have ht : t = cur.trigger := by
          rcases List.mem_append.mp hmem with hsw | hrest
          · rcases List.mem_append.mp hsw with hlit | hmap
            · simp only [List.mem_cons, List.not_mem_nil, or_false] at hlit
              rcases hlit with h | h | h | h
              · exact absurd h (by simp)
              · exact absurd h (by simp)
              · exact absurd h (by simp)
              · exact Event.fire.inj h
            · simp only [List.mem_map] at hmap
              obtain ⟨a, ha, hfa⟩ := hmap
              exact absurd hfa (by simp)
          · rcases List.mem_append.mp hrest with hbd2 | hdisp
            · exact absurd hbd2 (hnf t)
            · simp at hdisp
        cases pre with
        | nil =>
          rw [← hdeq] at hd
          simp [swapEvents] at hd
        | cons p0 pre' =>
          rw [← hdeq] at hd
          simp only [swapEvents, List.cons_append, List.nil_append,
            List.append_assoc] at hd
          injection hd with hp0 htail
          refine ⟨0, cur, f0, hcur, ht.symm, by simp, ?_⟩
          rw [← hp0]
          exact List.mem_cons_self _ _

/-- Claim C6: within one rebuild pass, for every depth at which a trigger is
fired, that depth's params signal has already been set to the new match's
params earlier in the same pass's event delta — a trigger never fires at a
depth with stale params. -/
theorem c6_params_updated_before_fire (ch : List Frame) (s0 : RouterState) (outer : Nat)
    (st : St) (d pre suf : List Event) (t : Nat)
    (hev : (rebuildTop ch s0 outer st).2.events = st.events ++ d)
    (hd : d = pre ++ Event.fire t :: suf) :
    ∃ (k : Nat) (u : OutletCtx) (f : Frame),
      s0.outlets[k]? = some u ∧ u.trigger = t ∧ ch[k]? = some f ∧
      Event.paramsSet u.params f.params ∈ pre := by
  cases ch with
  | nil =>
    simp only [rebuildTop, St.disposeAll_events] at hev
    have hdeq := List.append_cancel_left hev
    have hmem : Event.fire t ∈ d := by
      rw [hd]
      simp
    rw [← hdeq] at hmem
    simp [List.mem_map] at hmem
  | cons f0 rest =>
    simp only [rebuildTop] at hev
    obtain ⟨k, u, f, hu, ht, hf, hps⟩ :=
      rebuild_fire_src (f0 :: rest) 0 s0.outlets outer st d pre suf t hev hd
    exact ⟨k, u, f, by simpa using hu, ht, hf, hps⟩

/-- Witness for C6 at a concrete input: rebuilding the one-depth stack with
a different id fires trigger 2, and the delta updates params signal 1 first. -/
theorem c6_params_updated_before_fire_witness :
    (rebuildTop [⟨1, [], 11⟩] (buildTop [⟨0, [], 10⟩] 100 St.init).1 100 (buildTop [⟨0, [], 10⟩] 100 St.init).2).2.events =
      (buildTop [⟨0, [], 10⟩] 100 St.init).2.events ++
        [Event.paramsSet 1 [], Event.newScope 4 100, Event.send 3 11 4, Event.fire 2,
         Event.dispose 0] ∧
    ([Event.paramsSet 1 [], Event.newScope 4 100, Event.send 3 11 4, Event.fire 2,
      Event.dispose 0] : List Event) =
      [Event.paramsSet 1 [], Event.newScope 4 100, Event.send 3 11 4] ++
        Event.fire 2 :: [Event.dispose 0] ∧
    (∃ (k : Nat) (u : OutletCtx) (f : Frame),
      (buildTop [⟨0, [], 10⟩] 100 St.init).1.outlets[k]? = some u ∧ u.trigger = 2 ∧ ([⟨1, [], 11⟩] : List Frame)[k]? = some f ∧
      Event.paramsSet u.params f.params ∈
        [Event.paramsSet 1 [], Event.newScope 4 100, Event.send 3 11 4]) :=
  ⟨by decide, by decide,
   c6_params_updated_before_fire [⟨1, [], 11⟩] (buildTop [⟨0, [], 10⟩] 100 St.init).1 100 (buildTop [⟨0, [], 10⟩] 100 St.init).2
     [Event.paramsSet 1 [], Event.newScope 4 100, Event.send 3 11 4, Event.fire 2,
      Event.dispose 0]
     [Event.paramsSet 1 [], Event.newScope 4 100, Event.send 3 11 4] [Event.dispose 0] 2
     (by decide) (by decide)⟩

/-- A rebuild pass whose chain agrees with the stack on the first `K` ids
and differs at depth `K` walks the identity-equal prefix and swaps at `K`:
the entry keeps its trigger/params/channel but records the new id and a
fresh child scope of the depth's parent scope; the new view is sent and the
trigger fired; the params were set; the old scope is disposed; the stack is
truncated to `K + 1` entries and the remaining chain is appended as a fresh
initial build. -/
theorem rebuild_reach_diff (K : Nat) :
    ∀ (ch : List Frame) (items : Nat) (outlets : List OutletCtx) (parent : Nat) (st : St)
      (f : Frame) (cur : OutletCtx),
    (∀ (j : Nat) (fj : Frame) (cj : OutletCtx), j < K → ch[j]? = some fj →
      outlets[items + j]? = some cj → fj.id = cj.id) →
    ch[K]? = some f →
    outlets[items + K]? = some cur →
    f.id ≠ cur.id →
    ∃ (s' pOwner : Nat) (st1 : St) (d : List Event),
      (rebuildNestedRoute ch items outlets parent st).1 =
        outlets.take (items + K) ++
          ({ cur with id := f.id, owner := s' } ::
            (buildNestedRoute (ch.drop (K + 1)) [] s' st1).1) ∧
      s' = st.fresh ∧
      ((K = 0 ∧ pOwner = parent) ∨
        (∃ j v, K = j + 1 ∧ outlets[items + j]? = some v ∧ pOwner = v.owner)) ∧
      (rebuildNestedRoute ch items outlets parent st).2.events = st.events ++ d ∧
      Event.paramsSet cur.params f.params ∈ d ∧
      Event.newScope s' pOwner ∈ d ∧
      Event.send cur.tx f.view s' ∈ d ∧
      Event.fire cur.trigger ∈ d ∧
      Event.dispose cur.owner ∈ d := by
  induction K with
  | zero =>
    intro ch items outlets parent st f cur heq hf hcur hne
    cases ch with
    | nil => simp at hf
    | cons f0 rest =>
      simp only [List.getElem?_cons_zero, Option.some.injEq] at hf
      subst hf
      have hcur' : outlets[items]? = some cur := by simpa using hcur
      rw [rebuildNestedRoute_ne _ _ _ _ _ _ _ hcur' hne]
      obtain ⟨bd, hbd, -⟩ := build_events_shape rest [] st.fresh
        { fresh := st.fresh + 1,
          events := st.events ++ swapEvents f0 cur parent items outlets st }
      refine ⟨st.fresh, parent,
        { fresh := st.fresh + 1,
          events := st.events ++ swapEvents f0 cur parent items outlets st },
        swapEvents f0 cur parent items outlets st ++ (bd ++ [Event.dispose cur.owner]),
        ?_, rfl, Or.inl ⟨rfl, rfl⟩, ?_, ?_, ?_, ?_, ?_, ?_⟩
      · simp [List.append_assoc]
      · rw [St.emit_events, hbd]
        simp [List.append_assoc]
      · simp [swapEvents]
      · simp [swapEvents]
      · simp [swapEvents]
      · simp [swapEvents]
      · simp
  | succ K ih =>
    intro ch items outlets parent st f cur heq hf hcur hne
    cases ch with
    | nil => simp at hf
    | cons f0 rest =>
      have hlt : items + (K + 1) < outlets.length := (List.getElem?_eq_some.mp hcur).1
      have hlt0 : items < outlets.length := by omega
      obtain ⟨c0, hc0⟩ : ∃ c0, outlets[items]? = some c0 :=
        ⟨outlets[items], List.getElem?_eq_getElem hlt0⟩
      have hid0 : f0.id = c0.id :=
        heq 0 f0 c0 (by omega) (by simp) (by simpa using hc0)
      rw [rebuildNestedRoute_eq _ _ _ _ _ _ _ hc0 hid0]
      have heqshift : ∀ (j : Nat) (fj : Frame) (cj : OutletCtx), j < K →
          rest[j]? = some fj → outlets[items + 1 + j]? = some cj → fj.id = cj.id := by
        intro j fj cj hj hfj hcj
        have harith : items + 1 + j = items + (j + 1) := by omega
        rw [harith] at hcj
        exact heq (j + 1) fj cj (by omega) (by simpa using hfj) hcj
      have hfshift : rest[K]? = some f := by simpa using hf
      have hcurshift : outlets[items + 1 + K]? = some cur := by
        have harith : items + 1 + K = items + (K + 1) := by omega
        rwa [harith]
      obtain ⟨s', pOwner, st1, d, h1, h2, h3, h4, h5, h6, h7, h8, h9⟩ :=
        ih rest (items + 1) outlets c0.owner
          { st with events := st.events ++ [Event.paramsSet c0.params f0.params] } f cur
          heqshift hfshift hcurshift hne
      refine ⟨s', pOwner, st1, Event.paramsSet c0.params f0.params :: d,
        ?_, h2, ?_, ?_, List.mem_cons_of_mem _ h5, List.mem_cons_of_mem _ h6,
        List.mem_cons_of_mem _ h7, List.mem_cons_of_mem _ h8,
        List.mem_cons_of_mem _ h9⟩
      · rw [h1]
        have harith : items + 1 + K = items + (K + 1) := by omega
        rw [harith]
        simp [List.drop_succ_cons]
      · rcases h3 with ⟨hK0, hpo⟩ | ⟨j, v, hKj, hv, hpo⟩
        · subst hK0
          exact Or.inr ⟨0, c0, rfl, by simpa using hc0, hpo⟩
        · subst hKj
          refine Or.inr ⟨j + 1, v, rfl, ?_, hpo⟩
          have harith : items + 1 + j = items + (j + 1) := by omega
          rwa [harith] at hv
      · rw [h4]
        simp

/-- Claim C1: for every rebuild pass reaching a depth `K` whose new match id
differs from the stored outlet id at `K`, the engine records the new id onto
the outlet, replaces the outlet's scope with a fresh child scope of the
parent (fresh: distinct from every scope in the stack; the old scope is
disposed), sends the new view through the outlet's existing channel, fires
the outlet's trigger, truncates the outlet stack to length `K + 1`, appends
the remaining child chain as a fresh initial build, and performs no further
diffing below depth `K`. -/
theorem c1_rebuild_swaps_at_changed_depth (K : Nat) (ch : List Frame) (s0 : RouterState)
    (outer : Nat) (st : St) (f : Frame) (cur : OutletCtx)
    (hb : ∀ u ∈ s0.outlets, u.owner < st.fresh)
    (heq : ∀ (j : Nat) (fj : Frame) (cj : OutletCtx), j < K → ch[j]? = some fj →
      s0.outlets[j]? = some cj → fj.id = cj.id)
    (hf : ch[K]? = some f)
    (hcur : s0.outlets[K]? = some cur)
    (hne : f.id ≠ cur.id) :
    ∃ (s' pOwner : Nat) (st1 : St) (d : List Event),
      (rebuildTop ch s0 outer st).1.outlets =
        s0.outlets.take K ++
          ({ cur with id := f.id, owner := s' } ::
            (buildNestedRoute (ch.drop (K + 1)) [] s' st1).1) ∧
      ((K = 0 ∧ pOwner = outer) ∨
        (∃ j v, K = j + 1 ∧ s0.outlets[j]? = some v ∧ pOwner = v.owner)) ∧
      (∀ u ∈ s0.outlets, u.owner ≠ s') ∧
      (rebuildTop ch s0 outer st).2.events = st.events ++ d ∧
      Event.paramsSet cur.params f.params ∈ d ∧
      Event.newScope s' pOwner ∈ d ∧
      Event.send cur.tx f.view s' ∈ d ∧
      Event.fire cur.trigger ∈ d ∧
      Event.dispose cur.owner ∈ d := by
  cases ch with
  | nil => simp at hf
  | cons f0 rest =>
    simp only [rebuildTop]
    obtain ⟨s', pOwner, st1, d, h1, h2, h3, h4, h5, h6, h7, h8, h9⟩ :=
      rebuild_reach_diff K (f0 :: rest) 0 s0.outlets outer st f cur
        (fun j fj cj hj hfj hcj => heq j fj cj hj hfj (by simpa using hcj))
        hf (by simpa using hcur) hne
    refine ⟨s', pOwner, st1, d, by simpa using h1, ?_, ?_, h4, h5, h6, h7, h8, h9⟩
    · rcases h3 with ⟨h30, h31⟩ | ⟨j, v, hKj, hv, hpo⟩
      · exact Or.inl ⟨h30, h31⟩
      · exact Or.inr ⟨j, v, hKj, by simpa using hv, hpo⟩
    · intro u hu h
      have hub := hb u hu
      rw [h, h2] at hub
      exact lt_irrefl _ hub

/-- Witness for C1 at a concrete input: the one-depth stack built for id 0
is rebuilt with a chain whose depth-0 id is 1. -/
theorem c1_rebuild_swaps_at_changed_depth_witness :
    (∀ u ∈ (buildTop [⟨0, [], 10⟩] 100 St.init).1.outlets, u.owner < (buildTop [⟨0, [], 10⟩] 100 St.init).2.fresh) ∧
    ([⟨1, [], 11⟩] : List Frame)[0]? = some ⟨1, [], 11⟩ ∧
    (buildTop [⟨0, [], 10⟩] 100 St.init).1.outlets[0]? = some ⟨0, 2, 1, 0, 3, 3⟩ ∧
    (⟨1, [], 11⟩ : Frame).id ≠ (⟨0, 2, 1, 0, 3, 3⟩ : OutletCtx).id ∧
    (∃ (s' pOwner : Nat) (st1 : St) (d : List Event),
      (rebuildTop [⟨1, [], 11⟩] (buildTop [⟨0, [], 10⟩] 100 St.init).1 100 (buildTop [⟨0, [], 10⟩] 100 St.init).2).1.outlets =
        (buildTop [⟨0, [], 10⟩] 100 St.init).1.outlets.take 0 ++
          ({ (⟨0, 2, 1, 0, 3, 3⟩ : OutletCtx) with
              id := (⟨1, [], 11⟩ : Frame).id, owner := s' } ::
            (buildNestedRoute (([⟨1, [], 11⟩] : List Frame).drop (0 + 1)) [] s' st1).1) ∧
      ((0 = 0 ∧ pOwner = 100) ∨
        (∃ j v, 0 = j + 1 ∧ (buildTop [⟨0, [], 10⟩] 100 St.init).1.outlets[j]? = some v ∧ pOwner = v.owner)) ∧
      (∀ u ∈ (buildTop [⟨0, [], 10⟩] 100 St.init).1.outlets, u.owner ≠ s') ∧
      (rebuildTop [⟨1, [], 11⟩] (buildTop [⟨0, [], 10⟩] 100 St.init).1 100 (buildTop [⟨0, [], 10⟩] 100 St.init).2).2.events = (buildTop [⟨0, [], 10⟩] 100 St.init).2.events ++ d ∧
      Event.paramsSet (⟨0, 2, 1, 0, 3, 3⟩ : OutletCtx).params (⟨1, [], 11⟩ : Frame).params ∈ d ∧
      Event.newScope s' pOwner ∈ d ∧
      Event.send (⟨0, 2, 1, 0, 3, 3⟩ : OutletCtx).tx (⟨1, [], 11⟩ : Frame).view s' ∈ d ∧
      Event.fire (⟨0, 2, 1, 0, 3, 3⟩ : OutletCtx).trigger ∈ d ∧
      Event.dispose (⟨0, 2, 1, 0, 3, 3⟩ : OutletCtx).owner ∈ d) :=
  ⟨by decide, by decide, by decide, by decide,
   c1_rebuild_swaps_at_changed_depth 0 [⟨1, [], 11⟩] (buildTop [⟨0, [], 10⟩] 100 St.init).1 100 (buildTop [⟨0, [], 10⟩] 100 St.init).2
     ⟨1, [], 11⟩ ⟨0, 2, 1, 0, 3, 3⟩ (by decide)
     (fun j fj cj hj _ _ => absurd hj (Nat.not_lt_zero j))
     (by decide) (by decide) (by decide)⟩
